import Mathlib

/-!
Verification of the fiscal-budget aggregation pipeline
(`src/app/open_fiscal/aggregator.py`).

The pipeline is shallowly embedded as follows.

* A pandas `DataFrame` produced by `pivot_table` is modelled as a row list
  (`index`), a column list (`columns`) and a rectangular matrix of cells.
  A cell is `Option ℚ`: `none` models a missing value (`NaN` / `pd.NA`),
  `some q` a defined float, with floats idealised as rationals.
* `calculate_yoy_change` is the composition
  `(df.diff(axis=1) / df.shift(axis=1).replace(0, pd.NA)) * 100`,
  modelled element-wise with the usual NA-propagation of pandas arithmetic
  (`NA` on either side of `-` or `/` yields `NA`).
* `format_percentage` follows the Python conditional chain literally; the
  `"{x:.2f}"` fixed-point rendering is modelled by `fmtTwoDec` (rounding the
  scaled magnitude to the nearest integer, the half-case rounding up).
* `sort_yearly_budgets` (flat-column branch, the shape produced by the
  repository's own call with a single column key) follows pandas
  `DataFrame.sort_values` via `nargsort`: positions holding defined values
  are argsorted by value, positions holding `NaN` are appended at the end
  for BOTH ascending and descending order (`na_position="last"`), and a
  descending sort reverses the defined values before argsorting and reverses
  the resulting indexer again.  The underlying argsort is modelled as a
  stable sort (`List.insertionSort`); numpy's default `kind="quicksort"` is
  an introsort that agrees with this model on tie-free data and, via its
  insertion-sort small-array path, on arrays of fewer than 16 elements, but
  it is not documented to be stable in general.
* `BaseAggregator.aggregate` is pandas
  `pivot_table(index=…, columns=…, values=…, aggfunc="sum")`: it raises
  `KeyError` for a requested field absent from the input schema (the spec's
  `InvalidFieldError`), groups the surviving records by the (group, time)
  pair, sums the value field inside each group and arranges the sums on the
  cartesian grid of observed group and time labels, leaving every
  unobserved combination `NaN`.
-/

namespace OpenFiscal

open scoped List

/-- A table cell: `none` is pandas `NaN`/`pd.NA`, `some q` a defined value. -/
abbrev Cell := Option ℚ

/-- A pivoted pandas DataFrame: row labels, column labels, cell matrix. -/
structure DataFrame where
  index : List String
  columns : List String
  data : List (List Cell)
deriving DecidableEq, Repr

/-- Well-formedness of a pivoted table: one data row per index label and one
cell per column label in every row. -/
def DataFrame.WF (df : DataFrame) : Prop :=
  df.index.length = df.data.length ∧ ∀ row ∈ df.data, row.length = df.columns.length

instance (df : DataFrame) : Decidable df.WF := by
  unfold DataFrame.WF; infer_instance

/-- The cell of `df` at row position `r` and column position `i`
(out-of-range positions read as `NaN`). -/
def cellAt (df : DataFrame) (r i : ℕ) : Cell :=
  (df.data.getD r []).getD i none

/-- Pandas subtraction on possibly-missing values: `NA` propagates. -/
def optSub : Cell → Cell → Cell
  | some a, some b => some (a - b)
  | _, _ => none

/-- Pandas division on possibly-missing values: `NA` propagates. -/
def optDiv : Cell → Cell → Cell
  | some a, some b => some (a / b)
  | _, _ => none

/-- One row of `df.shift(axis=1)`: every cell moves one column to the
right, the first column becomes `NA`, the last cell falls off. -/
def shiftRow (xs : List Cell) : List Cell :=
  (none :: xs).take xs.length

/-- One row of `df.diff(axis=1)`: cell minus its left neighbour. -/
def diffRow (xs : List Cell) : List Cell :=
  List.zipWith optSub xs (shiftRow xs)

/-- `.replace(0, pd.NA)` on one cell. -/
def replaceZero (c : Cell) : Cell :=
  match c with
  | some q => if q = 0 then none else some q
  | none => none

/-- One row of `(df.diff(axis=1) / df.shift(axis=1).replace(0, pd.NA)) * 100`. -/
def yoyRow (xs : List Cell) : List Cell :=
  (List.zipWith optDiv (diffRow xs) ((shiftRow xs).map replaceZero)).map
    (Option.map (· * 100))

/-- `BudgetDataFormatter.calculate_yoy_change`:
`(df.diff(axis=1) / df.shift(axis=1).replace(0, pd.NA)) * 100`. -/
def calculate_yoy_change (df : DataFrame) : DataFrame :=
  ⟨df.index, df.columns, df.data.map yoyRow⟩

/-- The `"{x:.2f}"` fixed-point rendering of a rational: sign of the number,
then the magnitude rounded to two decimal places. -/
def fmtTwoDec (x : ℚ) : String :=
  (if x < 0 then "-" else "") ++ toString (round (|x| * 100) / 100) ++ "." ++
    (if round (|x| * 100) % 100 < 10 then "0" else "") ++ toString (round (|x| * 100) % 100)

/-- `BudgetDataFormatter.format_percentage`.  The Python argument is either a
defined float (`some q`; the `isinstance` test succeeds and `q` compares
normally) or an undefined value (`none`: `pd.NA`, for which the `isinstance`
test fails, or `NaN`, for which both comparisons are false) — in every
undefined case the Python code returns `"NaN"`. -/
def format_percentage : Option ℚ → String
  | some x =>
      if x > 0 then "+" ++ fmtTwoDec x ++ "%"
      else if x < 0 then fmtTwoDec x ++ "%"
      else "NaN"
  | none => "NaN"

/-- Comparison used by the argsort on (original position, value) pairs:
compare the values only, so that position order is what a stable sort
preserves on ties. -/
def pairLE (a b : ℕ × ℚ) : Prop :=
  a.2 ≤ b.2

instance : DecidableRel pairLE :=
  fun a b => inferInstanceAs (Decidable (a.2 ≤ b.2))

instance : IsTotal (ℕ × ℚ) pairLE :=
  ⟨fun a b => le_total a.2 b.2⟩

instance : IsTrans (ℕ × ℚ) pairLE :=
  ⟨fun _ _ _ hab hbc => le_trans hab hbc⟩

/-- The (position, value) pairs of the defined cells of a column, in
original row order. -/
def nonNans (vs : List Cell) : List (ℕ × ℚ) :=
  vs.enum.filterMap (fun p => p.2.map (fun q => (p.1, q)))

/-- The positions of the missing cells of a column, in original row order. -/
def nanIdx (vs : List Cell) : List ℕ :=
  vs.enum.filterMap (fun p => if p.2.isNone then some p.1 else none)

/-- Pandas `nargsort`, the indexer behind `DataFrame.sort_values` on one
column: argsort the defined entries (descending order reverses them first
and reverses the sorted indexer again), then append the positions of the
missing entries at the end (`na_position="last"`) in both directions. -/
def nargsort (vs : List Cell) (asc : Bool) : List ℕ :=
  if asc then
    (List.insertionSort pairLE (nonNans vs)).map Prod.fst ++ nanIdx vs
  else
    ((List.insertionSort pairLE (nonNans vs).reverse).map Prod.fst).reverse ++ nanIdx vs

/-- Position of a column label (in `sort_yearly_budgets` the label always
comes from `df.columns` itself). -/
def colIdx (df : DataFrame) (y : String) : ℕ :=
  df.columns.findIdx (fun c => c == y)

/-- The cells of column position `j`, top to bottom. -/
def colCells (df : DataFrame) (j : ℕ) : List Cell :=
  df.data.map (fun row => row.getD j none)

/-- `budget_data[[year]]`: the single-column sub-frame for one year, rows in
original order. -/
def selectCol (df : DataFrame) (y : String) : DataFrame :=
  ⟨df.index, [y], df.data.map (fun row => [row.getD (colIdx df y) none])⟩

/-- Reordering of the rows of a frame by an indexer of row positions (the
`take`-style reindex a sort indexer produces). -/
def reindex (df : DataFrame) (perm : List ℕ) : DataFrame :=
  ⟨perm.map (fun i => df.index.getD i ""), df.columns,
    perm.map (fun i => df.data.getD i [])⟩

/-- `year_data.sort_values(by=year, ascending=asc)` for the single-column
frame `year_data`: reorder the rows by the `nargsort` indexer of column 0. -/
def sortValues (df : DataFrame) (asc : Bool) : DataFrame :=
  reindex df (nargsort (colCells df 0) asc)

/-- `BudgetDataFormatter.sort_yearly_budgets`, flat-column branch (the shape
the repository's own `aggregate` call produces): for each year column, the
pair of entries `"{year}_asc"` and `"{year}_desc"` holding the single-year
sub-frame sorted ascending and descending. -/
def sort_yearly_budgets (df : DataFrame) : List (String × DataFrame) :=
  df.columns.flatMap (fun y =>
    [(y ++ "_asc", sortValues (selectCol df y) true),
     (y ++ "_desc", sortValues (selectCol df y) false)])

/-- A value held in one field of a raw fiscal record: a label or a number. -/
inductive FieldVal where
  | str : String → FieldVal
  | num : ℚ → FieldVal
deriving DecidableEq, Repr, Inhabited

/-- The axis label a field value becomes after pivoting. -/
def FieldVal.label : FieldVal → String
  | .str s => s
  | .num q => if q.den = 1 then toString q.num else toString q.num ++ "/" ++ toString q.den

/-- Lexicographic comparison of character lists (string collation for the
pivot axis order). -/
def chLe : List Char → List Char → Bool
  | [], _ => true
  | _ :: _, [] => false
  | a :: as, b :: bs =>
      if a.val < b.val then true
      else if b.val < a.val then false
      else chLe as bs

/-- Total order used to sort the pivot axes (pandas sorts the grouped labels;
fiscal data groups by homogeneous columns, so the cross-constructor cases are
arbitrary but fixed). -/
def fvLE : FieldVal → FieldVal → Prop
  | .num p, .num q => p ≤ q
  | .num _, .str _ => True
  | .str s, .str t => chLe s.data t.data = true
  | .str _, .num _ => False

instance : DecidableRel fvLE := fun a b =>
  match a, b with
  | .num p, .num q => inferInstanceAs (Decidable (p ≤ q))
  | .num _, .str _ => inferInstanceAs (Decidable True)
  | .str s, .str t => inferInstanceAs (Decidable (chLe s.data t.data = true))
  | .str _, .num _ => inferInstanceAs (Decidable False)

/-- The rectangular raw dataset held by the data manager: a field-name schema
and records aligned with it. -/
structure RawData where
  schema : List String
  recs : List (List FieldVal)

/-- Field access inside one record (`none` when the field is absent from the
schema or the record is short: pandas drops such records from the groups). -/
def getField (d : RawData) (rec : List FieldVal) (f : String) : Option FieldVal :=
  (d.schema.findIdx? (fun s => s == f)).bind (fun i => rec.get? i)

/-- The (group, time) key of a record, when both grouping fields are present. -/
def recPair (d : RawData) (i c : String) (rec : List FieldVal) : Option (FieldVal × FieldVal) :=
  (getField d rec i).bind (fun g => (getField d rec c).map (fun t => (g, t)))

/-- The distinct (group, time) keys observed in the data, in first-occurrence
order. -/
def observedPairs (d : RawData) (i c : String) : List (FieldVal × FieldVal) :=
  (d.recs.filterMap (recPair d i c)).dedup

/-- Whether a record belongs to the (g, t) group. -/
def matchesGT (d : RawData) (i c : String) (g t : FieldVal) (rec : List FieldVal) : Bool :=
  recPair d i c rec == some (g, t)

/-- The numeric content of the value field of one record. -/
def amountOf (d : RawData) (v : String) (rec : List FieldVal) : ℚ :=
  match getField d rec v with
  | some (.num q) => q
  | _ => 0

/-- `aggfunc="sum"` applied to one (g, t) group. -/
def groupSum (d : RawData) (i c v : String) (g t : FieldVal) : ℚ :=
  ((d.recs.filter (matchesGT d i c g t)).map (amountOf d v)).sum

/-- The grouped-and-summed association list `groupby([i, c]).agg("sum")`. -/
def agged (d : RawData) (i c v : String) : List ((FieldVal × FieldVal) × ℚ) :=
  (observedPairs d i c).map (fun gt => (gt, groupSum d i c v gt.1 gt.2))

/-- The sorted distinct group labels: the pivot's row axis. -/
def pivotRows (d : RawData) (i c : String) : List FieldVal :=
  List.insertionSort fvLE (((observedPairs d i c).map Prod.fst).dedup)

/-- The sorted distinct time labels: the pivot's column axis. -/
def pivotCols (d : RawData) (i c : String) : List FieldVal :=
  List.insertionSort fvLE (((observedPairs d i c).map Prod.snd).dedup)

/-- The cell the unstacked grid holds for the (g, t) combination: the group's
sum when the combination was observed, `NaN` otherwise. -/
def pivotCell (d : RawData) (i c v : String) (g t : FieldVal) : Cell :=
  (agged d i c v).lookup (g, t)

/-- `data.pivot_table(index=i, columns=c, values=v, aggfunc="sum")` on the
cartesian grid of observed labels. -/
def pivot_table (d : RawData) (i c v : String) : DataFrame :=
  ⟨(pivotRows d i c).map FieldVal.label, (pivotCols d i c).map FieldVal.label,
    (pivotRows d i c).map (fun g => (pivotCols d i c).map (fun t => pivotCell d i c v g t))⟩

/-- The exception pandas raises for a requested field that is not a column of
the data (the failure the spec's error taxonomy names `InvalidFieldError`). -/
inductive PivotError where
  | keyError : String → PivotError
deriving DecidableEq, Repr

/-- `BaseAggregator.aggregate`: `pivot_table` checks the `values` field
first, then the grouping keys, raising `KeyError` for the first absent one;
otherwise it builds the pivoted table. -/
def aggregate (d : RawData) (index columns values : String) : Except PivotError DataFrame :=
  if values ∈ d.schema then
    if index ∈ d.schema then
      if columns ∈ d.schema then .ok (pivot_table d index columns values)
      else .error (.keyError columns)
    else .error (.keyError index)
  else .error (.keyError values)

/-! ### Helper lemmas for `calculate_yoy_change` -/

@[simp] lemma optSub_none_left (c : Cell) : optSub none c = none := by
  cases c <;> rfl

@[simp] lemma optSub_none_right (c : Cell) : optSub c none = none := by
  cases c <;> rfl

@[simp] lemma optDiv_none_left (c : Cell) : optDiv none c = none := by
  cases c <;> rfl

@[simp] lemma optDiv_none_right (c : Cell) : optDiv c none = none := by
  cases c <;> rfl

lemma shiftRow_length (xs : List Cell) : (shiftRow xs).length = xs.length := by
  simp [shiftRow]

lemma yoyRow_length (xs : List Cell) : (yoyRow xs).length = xs.length := by
  simp [yoyRow, diffRow, shiftRow_length]

lemma shiftRow_getElem?_succ (xs : List Cell) (j : ℕ) (h : j + 1 < xs.length) :
    (shiftRow xs)[j+1]? = xs[j]? := by
  rw [shiftRow, List.getElem?_take_of_lt h, List.getElem?_cons_succ]

/-- The cell formula of one year-over-year row at a positive column
position: current minus previous, divided by the zero-scrubbed previous,
times 100, with `NA` propagating through every step. -/
lemma yoyRow_getD (xs : List Cell) (j : ℕ) :
    (yoyRow xs).getD (j+1) none =
      Option.map (· * 100)
        (optDiv (optSub (xs.getD (j+1) none) (xs.getD j none))
          (replaceZero (xs.getD j none))) := by
  by_cases h : j + 1 < xs.length
  · have hj : j < xs.length := by omega
    have hx1 : xs[j+1]? = some (xs.getD (j+1) none) := by
      simp [List.getD_eq_getElem?_getD, List.getElem?_eq_getElem h]
    have hx0 : xs[j]? = some (xs.getD j none) := by
      simp [List.getD_eq_getElem?_getD, List.getElem?_eq_getElem hj]
    have hsh : (shiftRow xs)[j+1]? = some (xs.getD j none) := by
      rw [shiftRow_getElem?_succ _ _ h]; exact hx0
    have hdiff : (diffRow xs)[j+1]? =
        some (optSub (xs.getD (j+1) none) (xs.getD j none)) := by
      rw [diffRow, List.getElem?_zipWith, hx1, hsh]
    have hrep : ((shiftRow xs).map replaceZero)[j+1]? =
        some (replaceZero (xs.getD j none)) := by
      rw [List.getElem?_map, hsh]; rfl
    rw [List.getD_eq_getElem?_getD, yoyRow, List.getElem?_map,
      List.getElem?_zipWith, hdiff, hrep]
    rfl
  · have hx1 : xs.getD (j+1) none = none := by
      simp [List.getD_eq_getElem?_getD, List.getElem?_eq_none (by omega : xs.length ≤ j + 1)]
    have hy : (yoyRow xs)[j+1]? = none :=
      List.getElem?_eq_none (by rw [yoyRow_length]; omega)
    rw [List.getD_eq_getElem?_getD, hy, hx1]
    simp

/-- The first cell of every year-over-year row is missing. -/
lemma yoyRow_getD_zero (xs : List Cell) : (yoyRow xs).getD 0 none = none := by
  cases xs with
  | nil => rfl
  | cons x t => simp [yoyRow, diffRow, shiftRow, replaceZero]

lemma map_yoyRow_getD (l : List (List Cell)) (r : ℕ) :
    (l.map yoyRow).getD r [] = yoyRow (l.getD r []) := by
  induction l generalizing r with
  | nil => simp [yoyRow, diffRow, shiftRow]
  | cons row t ih => cases r with
    | zero => rfl
    | succ r => simpa using ih r

lemma cellAt_yoy (df : DataFrame) (r j : ℕ) :
    cellAt (calculate_yoy_change df) r (j+1) =
      Option.map (· * 100)
        (optDiv (optSub (cellAt df r (j+1)) (cellAt df r j))
          (replaceZero (cellAt df r j))) := by
  show ((df.data.map yoyRow).getD r []).getD (j+1) none = _
  rw [map_yoyRow_getD]
  exact yoyRow_getD _ j

/-! ### Claims about `calculate_yoy_change` and `format_percentage` -/

/-- Claim C1: for every pivoted table, row `r` and column position `i > 0`,
the year-over-year cell equals `(table[r][i] - table[r][i-1]) / table[r][i-1]
* 100` whenever both cells are defined and the previous one is nonzero, and
the cell is missing (no value, no division fault) whenever the previous cell
is zero. -/
theorem calculate_yoy_change_cell (df : DataFrame) (r i : ℕ) (hi : 0 < i) :
    (∀ a b : ℚ, cellAt df r i = some a → cellAt df r (i-1) = some b → b ≠ 0 →
      cellAt (calculate_yoy_change df) r i = some ((a - b) / b * 100)) ∧
    (cellAt df r (i-1) = some 0 → cellAt (calculate_yoy_change df) r i = none) := by
  obtain ⟨j, rfl⟩ : ∃ j, i = j + 1 := ⟨i - 1, by omega⟩
  simp only [Nat.add_sub_cancel]
  constructor
  · intro a b ha hb hbne
    rw [cellAt_yoy, ha, hb]
    simp [optSub, optDiv, replaceZero, hbne]
  · intro h0
    rw [cellAt_yoy, h0]
    cases hcur : cellAt df r (j+1) <;> simp [optSub, optDiv, replaceZero]

/-- Witness for C1 on the row `[0, 10, 15]`: the step from 10 to 15 is
`+50%`, and the step whose basis is 0 is missing rather than a fault. -/
theorem calculate_yoy_change_cell_w :
    cellAt (calculate_yoy_change
      ⟨["A"], ["2024", "2025", "2026"], [[some 0, some 10, some 15]]⟩) 0 2 = some 50 ∧
    cellAt (calculate_yoy_change
      ⟨["A"], ["2024", "2025", "2026"], [[some 0, some 10, some 15]]⟩) 0 1 = none := by
  constructor
  · have h := (calculate_yoy_change_cell
      ⟨["A"], ["2024", "2025", "2026"], [[some 0, some 10, some 15]]⟩ 0 2 (by norm_num)).1
      15 10 rfl rfl (by norm_num)
    rw [h]; norm_num
  · exact (calculate_yoy_change_cell
      ⟨["A"], ["2024", "2025", "2026"], [[some 0, some 10, some 15]]⟩ 0 1 (by norm_num)).2 rfl

/-- Claim C7: in the output of `calculate_yoy_change`, the cell at column
position 0 is missing for every row (there is no prior year). -/
theorem calculate_yoy_change_col0 (df : DataFrame) (r : ℕ) :
    cellAt (calculate_yoy_change df) r 0 = none := by
  show ((df.data.map yoyRow).getD r []).getD 0 none = none
  rw [map_yoyRow_getD]
  exact yoyRow_getD_zero _

/-- Claim C9: `calculate_yoy_change` preserves the row labels (same
ministries, same order), the column labels (hence the column count), and the
width of every data row. -/
theorem calculate_yoy_change_shape (df : DataFrame) :
    (calculate_yoy_change df).index = df.index ∧
    (calculate_yoy_change df).columns = df.columns ∧
    (calculate_yoy_change df).data.map List.length = df.data.map List.length := by
  refine ⟨rfl, rfl, ?_⟩
  show (df.data.map yoyRow).map List.length = _
  rw [List.map_map]
  exact List.map_congr_left (fun xs _ => yoyRow_length xs)

/-- Claim C2: `format_percentage` is total; a defined positive value renders
as `"+{x:.2f}%"`, a defined negative value as `"{x:.2f}%"`, and a defined
zero or an undefined value as the string `"NaN"`. -/
theorem format_percentage_total (x : Option ℚ) :
    (∀ q : ℚ, x = some q →
      (0 < q → format_percentage x = "+" ++ fmtTwoDec q ++ "%") ∧
      (q < 0 → format_percentage x = fmtTwoDec q ++ "%") ∧
      (q = 0 → format_percentage x = "NaN")) ∧
    (x = none → format_percentage x = "NaN") := by
  constructor
  · rintro q rfl
    refine ⟨fun h => ?_, fun h => ?_, fun h => ?_⟩
    · simp [format_percentage, h]
    · simp [format_percentage, if_neg (lt_asymm h), if_pos h]
    · subst h; simp [format_percentage]
  · rintro rfl; rfl

/-- Witness for C2 at the spec's four sample inputs. -/
theorem format_percentage_total_w :
    format_percentage (some 5) = "+5.00%" ∧
    format_percentage (some (-3333/1000)) = "-3.33%" ∧
    format_percentage (some 0) = "NaN" ∧
    format_percentage none = "NaN" := by
  have hr5 : round (|(5:ℚ)| * 100) = 500 := by norm_num [round_eq]
  have hr3 : round (|(-3333/1000:ℚ)| * 100) = 333 := by
    norm_num [round_eq, Int.floor_eq_iff, abs_of_nonneg]
  have hf5 : fmtTwoDec 5 = "5.00" := by
    simp only [fmtTwoDec, hr5]
    rw [if_neg (show ¬ (5:ℚ) < 0 by norm_num)]
    decide
  have hf3 : fmtTwoDec (-3333/1000) = "-3.33" := by
    simp only [fmtTwoDec, hr3]
    rw [if_pos (show (-3333/1000:ℚ) < 0 by norm_num)]
    decide
  refine ⟨?_, ?_, ?_, ?_⟩
  · exact (((format_percentage_total (some 5)).1 5 rfl).1 (by norm_num)).trans
      (by rw [hf5]; decide)
  · exact (((format_percentage_total (some (-3333/1000))).1 _ rfl).2.1
      (by norm_num)).trans (by rw [hf3]; decide)
  · exact ((format_percentage_total (some 0)).1 0 rfl).2.2 rfl
  · exact (format_percentage_total none).2 rfl

/-! ### Helper lemmas for `sort_yearly_budgets` -/

lemma filterMap_guard {α β : Type} (p : α → Bool) (g : α → β) (l : List α) :
    l.filterMap (fun x => if p x then some (g x) else none) = (l.filter p).map g := by
  induction l with
  | nil => rfl
  | cons a t ih =>
      by_cases h : p a <;> simp [List.filterMap_cons, List.filter_cons, h, ih]

lemma nonNans_map_fst (vs : List Cell) :
    (nonNans vs).map Prod.fst = (vs.enum.filter (fun p => p.2.isSome)).map Prod.fst := by
  rw [nonNans, List.map_filterMap]
  rw [show (fun p : ℕ × Cell => (p.2.map (fun q => (p.1, q))).map Prod.fst) =
      (fun p : ℕ × Cell => if p.2.isSome then some p.1 else none) from
    funext (fun p => by cases p.2 <;> rfl)]
  exact filterMap_guard _ _ _

lemma nanIdx_eq (vs : List Cell) :
    nanIdx vs = (vs.enum.filter (fun p => !p.2.isSome)).map Prod.fst := by
  rw [nanIdx]
  rw [show (fun p : ℕ × Cell => if p.2.isNone then some p.1 else none) =
      (fun p : ℕ × Cell => if !p.2.isSome then some p.1 else none) from
    funext (fun p => by cases p.2 <;> rfl)]
  exact filterMap_guard _ _ _

/-- The indexer produced by `nargsort` is a permutation of the row
positions, in either direction. -/
lemma nargsort_perm (vs : List Cell) (b : Bool) :
    nargsort vs b ~ List.range vs.length := by
  have base : (nonNans vs).map Prod.fst ++ nanIdx vs ~ List.range vs.length := by
    rw [nonNans_map_fst, nanIdx_eq, ← List.map_append]
    calc ((vs.enum.filter (fun p => p.2.isSome)) ++ (vs.enum.filter (fun p => !p.2.isSome))).map Prod.fst ~ vs.enum.map Prod.fst := (List.filter_append_perm _ _).map _
      _ = List.range vs.length := List.enum_map_fst vs
  cases b with
  | true =>
      refine List.Perm.trans (List.Perm.append_right _ ?_) base
      exact (List.perm_insertionSort pairLE _).map _
  | false =>
      refine List.Perm.trans (List.Perm.append_right _ ?_) base
      calc ((List.insertionSort pairLE (nonNans vs).reverse).map Prod.fst).reverse ~ (List.insertionSort pairLE (nonNans vs).reverse).map Prod.fst := List.reverse_perm _
        _ ~ ((nonNans vs).reverse).map Prod.fst :=
            (List.perm_insertionSort pairLE _).map _
        _ ~ (nonNans vs).map Prod.fst := (List.reverse_perm _).map _

lemma range_map_getD {α : Type} (l : List α) (d : α) :
    (List.range l.length).map (fun i => l.getD i d) = l := by
  induction l with
  | nil => rfl
  | cons a t ih =>
      rw [List.length_cons, List.range_succ_eq_map, List.map_cons, List.map_map]
      simp only [Function.comp_def, List.getD_cons_zero, List.getD_cons_succ]
      rw [ih]

/-- Every (year, direction) entry of `sort_yearly_budgets` is present for
every year column. -/
lemma mem_sort_yearly_budgets (df : DataFrame) (y : String) (hy : y ∈ df.columns)
    (b : Bool) :
    (y ++ (if b then "_asc" else "_desc"), sortValues (selectCol df y) b) ∈
      sort_yearly_budgets df := by
  rw [sort_yearly_budgets, List.mem_flatMap]
  exact ⟨y, hy, by cases b <;> simp⟩

/-! ### Claims about `sort_yearly_budgets` -/

/-- Claim C5: for every year column `y` of the table, `sort_yearly_budgets`
contains both the `"{y}_asc"` and the `"{y}_desc"` entry; each holds the
single-year column and its rows are a permutation of the table's rows (same
ministry multiset, same cardinality).  No hypothesis requires any cell to be
defined, so a year whose cells are all missing still produces its pair of
entries. -/
theorem sort_yearly_budgets_complete (df : DataFrame)
    (hwf : df.index.length = df.data.length) (y : String) (hy : y ∈ df.columns)
    (b : Bool) :
    ∃ d, (y ++ (if b then "_asc" else "_desc"), d) ∈ sort_yearly_budgets df ∧
      (d.index ~ df.index) ∧ d.index.length = df.index.length ∧ d.columns = [y] := by
  refine ⟨sortValues (selectCol df y) b, mem_sort_yearly_budgets df y hy b, ?_, ?_, rfl⟩
  · show (nargsort (colCells (selectCol df y) 0) b).map
        (fun i => df.index.getD i "") ~ df.index
    have hlen : (colCells (selectCol df y) 0).length = df.index.length := by
      simp [colCells, selectCol, hwf]
    calc (nargsort (colCells (selectCol df y) 0) b).map (fun i => df.index.getD i "")
        ~ (List.range df.index.length).map (fun i => df.index.getD i "") := by
          refine List.Perm.map _ ?_
          rw [← hlen]
          exact nargsort_perm _ b
      _ = df.index := range_map_getD df.index ""
  · show ((nargsort (colCells (selectCol df y) 0) b).map
        (fun i => df.index.getD i "")).length = df.index.length
    rw [List.length_map, (nargsort_perm _ b).length_eq]
    simp [colCells, selectCol, hwf]

/-- Witness for C5: a table whose only year column is entirely undefined
still gets its `"2024_asc"` entry, carrying both ministries. -/
theorem sort_yearly_budgets_complete_w :
    ∃ d, ("2024" ++ (if true then "_asc" else "_desc"), d) ∈
        sort_yearly_budgets ⟨["A", "B"], ["2024"], [[none], [none]]⟩ ∧
      (d.index ~ ["A", "B"]) ∧ d.index.length = (["A", "B"] : List String).length ∧
      d.columns = ["2024"] :=
  sort_yearly_budgets_complete ⟨["A", "B"], ["2024"], [[none], [none]]⟩ rfl
    "2024" (by simp) true

/-- Claim C4 fails on the code: with a tied pair of amounts and a missing
cell, the ascending and the descending table coincide (ties keep original
order in both directions, and missing cells are appended at the end in both
directions), so neither is the reverse of the other. -/
theorem sort_yearly_budgets_not_reverse :
    ((sort_yearly_budgets ⟨["A", "B", "C"], ["2024"], [[some 1], [some 1], [none]]⟩).lookup
        "2024_desc") ≠
      (((sort_yearly_budgets ⟨["A", "B", "C"], ["2024"], [[some 1], [some 1], [none]]⟩).lookup
          "2024_asc").map
        (fun d => DataFrame.mk d.index.reverse d.columns d.data.reverse)) := by
  decide

lemma nonNans_map_snd (vs : List Cell) :
    (nonNans vs).map Prod.snd = vs.filterMap id := by
  rw [nonNans, List.map_filterMap]
  rw [show (fun p : ℕ × Cell => (p.2.map (fun q => (p.1, q))).map Prod.snd) =
      (fun p : ℕ × Cell => id p.2) from funext (fun p => by cases p.2 <;> rfl)]
  rw [show (fun p : ℕ × Cell => id p.2) = (id ∘ Prod.snd) from rfl]
  rw [← List.filterMap_map, List.enum_map_snd]

lemma nanIdx_eq_nil (vs : List Cell) (hdef : ∀ c ∈ vs, c.isSome = true) :
    nanIdx vs = [] := by
  rw [nanIdx, List.filterMap_eq_nil_iff]
  intro p hp
  have := hdef p.2 (List.snd_mem_of_mem_enum hp)
  cases h : p.2 with
  | none => rw [h] at this; simp at this
  | some q => simp [h]

/-- Two sorted permutations of the same pairs are equal when no value
repeats: the total preorder `pairLE` is antisymmetric on such lists. -/
lemma sorted_perm_snd_nodup_eq :
    ∀ (l₁ l₂ : List (ℕ × ℚ)), l₁ ~ l₂ → l₁.Pairwise pairLE → l₂.Pairwise pairLE →
      (l₁.map Prod.snd).Nodup → l₁ = l₂ := by
  intro l₁
  induction l₁ with
  | nil =>
      intro l₂ hp _ _ _
      exact (List.Perm.eq_nil hp.symm).symm
  | cons a t ih =>
      intro l₂ hp h₁ h₂ hnd
      cases l₂ with
      | nil => simpa using hp.eq_nil
      | cons b t₂ =>
          by_cases hab : a = b
          · subst hab
            have ht : t ~ t₂ := hp.cons_inv
            rw [ih t₂ ht (List.Pairwise.of_cons h₁) (List.Pairwise.of_cons h₂)
              (by simpa using List.Nodup.of_cons (by simpa using hnd))]
          · exfalso
            have hbmem : b ∈ t := by
              rcases List.mem_cons.mp (hp.mem_iff.mpr (List.mem_cons_self b t₂)) with h | h
              · exact absurd h.symm hab
              · exact h
            have hamem : a ∈ t₂ := by
              rcases List.mem_cons.mp (hp.mem_iff.mp (List.mem_cons_self a t)) with h | h
              · exact absurd h hab
              · exact h
            have h1 : pairLE a b := List.rel_of_pairwise_cons h₁ hbmem
            have h2 : pairLE b a := List.rel_of_pairwise_cons h₂ hamem
            have heq : b.2 = a.2 := le_antisymm h2 h1
            have hin : a.2 ∈ t.map Prod.snd :=
              heq ▸ List.mem_map_of_mem Prod.snd hbmem
            have hnd' : a.2 ∉ t.map Prod.snd :=
              (List.nodup_cons.mp (by simpa using hnd)).1
            exact hnd' hin

/-- When every cell of the column is defined and no amount repeats, the
descending indexer is exactly the reverse of the ascending one. -/
lemma nargsort_desc_eq_reverse (vs : List Cell)
    (hdef : ∀ c ∈ vs, c.isSome = true) (hnd : vs.Nodup) :
    nargsort vs false = (nargsort vs true).reverse := by
  have hnan : nanIdx vs = [] := nanIdx_eq_nil vs hdef
  have hnds : ((List.insertionSort pairLE (nonNans vs)).map Prod.snd).Nodup := by
    have : (nonNans vs).map Prod.snd = vs.filterMap id := nonNans_map_snd vs
    have hfn : (vs.filterMap id).Nodup :=
      List.Nodup.filterMap (fun a a' b hb hb' => by
        cases a <;> cases a' <;> simp_all) hnd
    exact (((List.perm_insertionSort pairLE (nonNans vs)).map Prod.snd).nodup_iff).mpr
      (this ▸ hfn)
  have hms : List.insertionSort pairLE (nonNans vs).reverse =
      List.insertionSort pairLE (nonNans vs) := by
    refine (sorted_perm_snd_nodup_eq _ _ ?_ ?_ ?_ ?_).symm
    · calc List.insertionSort pairLE (nonNans vs) ~ nonNans vs := List.perm_insertionSort _ _
        _ ~ (nonNans vs).reverse := (List.reverse_perm _).symm
        _ ~ List.insertionSort pairLE (nonNans vs).reverse :=
            (List.perm_insertionSort _ _).symm
    · exact List.sorted_insertionSort pairLE _
    · exact List.sorted_insertionSort pairLE _
    · exact hnds
  rw [nargsort, nargsort, if_pos rfl, if_neg (by simp), hnan, hms,
    List.append_nil, List.append_nil]

/-- Claim C4, amended: when the year's column has every cell defined and no
repeated amount, the `"{y}_asc"` and `"{y}_desc"` entries of
`sort_yearly_budgets` are exact reverses of each other, labels and rows
alike.  (The counterexample forces both restrictions: a missing cell sits at
the end of both orderings, and tied amounts keep their original relative
order in both orderings.) -/
theorem sort_yearly_budgets_reverse (df : DataFrame) (y : String)
    (hy : y ∈ df.columns)
    (hdef : ∀ c ∈ colCells (selectCol df y) 0, c.isSome = true)
    (hnd : (colCells (selectCol df y) 0).Nodup) :
    (y ++ "_asc", sortValues (selectCol df y) true) ∈ sort_yearly_budgets df ∧
    (y ++ "_desc", sortValues (selectCol df y) false) ∈ sort_yearly_budgets df ∧
    (sortValues (selectCol df y) false).index =
      (sortValues (selectCol df y) true).index.reverse ∧
    (sortValues (selectCol df y) false).data =
      (sortValues (selectCol df y) true).data.reverse := by
  have hrev := nargsort_desc_eq_reverse _ hdef hnd
  refine ⟨mem_sort_yearly_budgets df y hy true, mem_sort_yearly_budgets df y hy false,
    ?_, ?_⟩
  · show (nargsort (colCells (selectCol df y) 0) false).map _ =
      ((nargsort (colCells (selectCol df y) 0) true).map _).reverse
    rw [hrev, List.map_reverse]
  · show (nargsort (colCells (selectCol df y) 0) false).map _ =
      ((nargsort (colCells (selectCol df y) 0) true).map _).reverse
    rw [hrev, List.map_reverse]

/-- Witness for the amended C4 on a NaN-free, tie-free table. -/
theorem sort_yearly_budgets_reverse_w :
    ("2024_asc",
        sortValues (selectCol ⟨["A", "B"], ["2024"], [[some 1], [some 2]]⟩ "2024") true) ∈
      sort_yearly_budgets ⟨["A", "B"], ["2024"], [[some 1], [some 2]]⟩ ∧
    ("2024_desc",
        sortValues (selectCol ⟨["A", "B"], ["2024"], [[some 1], [some 2]]⟩ "2024") false) ∈
      sort_yearly_budgets ⟨["A", "B"], ["2024"], [[some 1], [some 2]]⟩ ∧
    (sortValues (selectCol ⟨["A", "B"], ["2024"], [[some 1], [some 2]]⟩ "2024") false).index =
      (sortValues (selectCol ⟨["A", "B"], ["2024"], [[some 1], [some 2]]⟩ "2024") true).index.reverse ∧
    (sortValues (selectCol ⟨["A", "B"], ["2024"], [[some 1], [some 2]]⟩ "2024") false).data =
      (sortValues (selectCol ⟨["A", "B"], ["2024"], [[some 1], [some 2]]⟩ "2024") true).data.reverse :=
  sort_yearly_budgets_reverse ⟨["A", "B"], ["2024"], [[some 1], [some 2]]⟩ "2024"
    (by simp) (by decide) (by decide)

/-! ### Claims about `aggregate` -/

/-- Claim C6: when any of the requested grouping, time or value fields is
absent from the input schema, `aggregate` fails synchronously with the
field-not-found error (pandas `KeyError`, the spec's `InvalidFieldError`)
naming one of the absent fields, and produces no table. -/
theorem aggregate_missing_field (d : RawData) (i c v : String)
    (h : i ∉ d.schema ∨ c ∉ d.schema ∨ v ∉ d.schema) :
    ∃ f, aggregate d i c v = .error (.keyError f) ∧ f ∉ d.schema ∧
      (f = i ∨ f = c ∨ f = v) := by
  unfold aggregate
  by_cases hv : v ∈ d.schema
  · rw [if_pos hv]
    by_cases hi : i ∈ d.schema
    · rw [if_pos hi]
      have hc : c ∉ d.schema := by tauto
      rw [if_neg hc]
      exact ⟨c, rfl, hc, Or.inr (Or.inl rfl)⟩
    · rw [if_neg hi]
      exact ⟨i, rfl, hi, Or.inl rfl⟩
  · rw [if_neg hv]
    exact ⟨v, rfl, hv, Or.inr (Or.inr rfl)⟩

/-- Witness for C6: requesting the repository's value field from a schema
that lacks it yields the error. -/
theorem aggregate_missing_field_w :
    ∃ f, aggregate ⟨["OFFC_NM", "FSCL_YY"], []⟩ "OFFC_NM" "FSCL_YY" "Y_YY_MEDI_KCUR_AMT" =
        .error (.keyError f) ∧
      f ∉ (["OFFC_NM", "FSCL_YY"] : List String) ∧
      (f = "OFFC_NM" ∨ f = "FSCL_YY" ∨ f = "Y_YY_MEDI_KCUR_AMT") :=
  aggregate_missing_field ⟨["OFFC_NM", "FSCL_YY"], []⟩ _ _ _
    (Or.inr (Or.inr (by decide)))

lemma lookup_map_self {α β : Type} [BEq α] [LawfulBEq α] (l : List α) (f : α → β) (k : α) :
    (l.map (fun x => (x, f x))).lookup k = if k ∈ l then some (f k) else none := by
  induction l with
  | nil => rfl
  | cons a t ih =>
      by_cases h : k = a
      · subst h
        simp [List.lookup]
      · have hba : (k == a) = false := beq_eq_false_iff_ne.mpr h
        simp [List.lookup, hba, ih, List.mem_cons, h]

lemma mem_observedPairs_iff (d : RawData) (i c : String) (g t : FieldVal) :
    (g, t) ∈ observedPairs d i c ↔ d.recs.any (matchesGT d i c g t) = true := by
  rw [observedPairs, List.mem_dedup, List.mem_filterMap, List.any_eq_true]
  constructor
  · rintro ⟨rec, hrec, heq⟩
    exact ⟨rec, hrec, by simp [matchesGT, heq]⟩
  · rintro ⟨rec, hrec, hm⟩
    exact ⟨rec, hrec, by simpa [matchesGT] using hm⟩

/-- The unstacked grid holds the group's sum exactly at the observed
combinations and a missing value everywhere else. -/
lemma pivotCell_eq (d : RawData) (i c v : String) (g t : FieldVal) :
    pivotCell d i c v g t =
      if d.recs.any (matchesGT d i c g t) = true
      then some (groupSum d i c v g t) else none := by
  unfold pivotCell agged
  refine Eq.trans (lookup_map_self (observedPairs d i c)
    (fun gt => groupSum d i c v gt.1 gt.2) (g, t)) ?_
  by_cases h : (g, t) ∈ observedPairs d i c
  · rw [if_pos h, if_pos ((mem_observedPairs_iff d i c g t).mp h)]
  · rw [if_neg h, if_neg (fun hc => h ((mem_observedPairs_iff d i c g t).mpr hc))]

lemma cellAt_pivot (d : RawData) (i c v : String) (r j : ℕ)
    (hr : r < (pivotRows d i c).length) (hj : j < (pivotCols d i c).length) :
    cellAt (pivot_table d i c v) r j =
      pivotCell d i c v ((pivotRows d i c).getD r default)
        ((pivotCols d i c).getD j default) := by
  have hrow : (pivotRows d i c).getD r default = (pivotRows d i c)[r] := by
    rw [List.getD_eq_getElem?_getD, List.getElem?_eq_getElem hr]; rfl
  have hcol : (pivotCols d i c).getD j default = (pivotCols d i c)[j] := by
    rw [List.getD_eq_getElem?_getD, List.getElem?_eq_getElem hj]; rfl
  have h1 : ((pivotRows d i c).map
      (fun g => (pivotCols d i c).map (fun t => pivotCell d i c v g t))).getD r [] =
      (pivotCols d i c).map (fun t => pivotCell d i c v ((pivotRows d i c)[r]) t) := by
    rw [List.getD_eq_getElem?_getD, List.getElem?_map, List.getElem?_eq_getElem hr]
    rfl
  have h2 : ((pivotCols d i c).map
      (fun t => pivotCell d i c v ((pivotRows d i c)[r]) t)).getD j none =
      pivotCell d i c v ((pivotRows d i c)[r]) ((pivotCols d i c)[j]) := by
    rw [List.getD_eq_getElem?_getD, List.getElem?_map, List.getElem?_eq_getElem hj]
    rfl
  show (((pivotRows d i c).map
      (fun g => (pivotCols d i c).map (fun t => pivotCell d i c v g t))).getD r []).getD
        j none = _
  rw [h1, h2, hrow, hcol]

/-- Claim C8: with all three fields present, `aggregate` succeeds with the
pivoted grid; every cell of the grid is the sum of the value field over the
records whose (group, time) pair equals the cell's row and column labels
when at least one such record exists, and is undefined — never zero — when
no record matches. -/
theorem aggregate_sums (d : RawData) (i c v : String)
    (hi : i ∈ d.schema) (hc : c ∈ d.schema) (hv : v ∈ d.schema) :
    aggregate d i c v = .ok (pivot_table d i c v) ∧
    (∀ r j : ℕ, r < (pivotRows d i c).length → j < (pivotCols d i c).length →
      cellAt (pivot_table d i c v) r j =
        pivotCell d i c v ((pivotRows d i c).getD r default)
          ((pivotCols d i c).getD j default)) ∧
    (∀ g t : FieldVal,
      pivotCell d i c v g t =
        if d.recs.any (matchesGT d i c g t) = true
        then some (groupSum d i c v g t) else none) := by
  refine ⟨?_, fun r j hr hj => cellAt_pivot d i c v r j hr hj,
    fun g t => pivotCell_eq d i c v g t⟩
  unfold aggregate
  rw [if_pos hv, if_pos hi, if_pos hc]

/-- Witness for C8 on three concrete records: aggregation succeeds, and the
unobserved (B, 2025) combination is an undefined cell, not zero. -/
theorem aggregate_sums_w :
    aggregate ⟨["OFFC_NM", "FSCL_YY", "AMT"],
        [[.str "A", .num 2024, .num 100], [.str "B", .num 2024, .num 200],
         [.str "A", .num 2025, .num 150]]⟩ "OFFC_NM" "FSCL_YY" "AMT" =
      .ok (pivot_table ⟨["OFFC_NM", "FSCL_YY", "AMT"],
        [[.str "A", .num 2024, .num 100], [.str "B", .num 2024, .num 200],
         [.str "A", .num 2025, .num 150]]⟩ "OFFC_NM" "FSCL_YY" "AMT") ∧
    pivotCell ⟨["OFFC_NM", "FSCL_YY", "AMT"],
        [[.str "A", .num 2024, .num 100], [.str "B", .num 2024, .num 200],
         [.str "A", .num 2025, .num 150]]⟩ "OFFC_NM" "FSCL_YY" "AMT"
        (.str "B") (.num 2025) = none := by
  have h := aggregate_sums ⟨["OFFC_NM", "FSCL_YY", "AMT"],
        [[.str "A", .num 2024, .num 100], [.str "B", .num 2024, .num 200],
         [.str "A", .num 2025, .num 150]]⟩ "OFFC_NM" "FSCL_YY" "AMT"
    (by decide) (by decide) (by decide)
  refine ⟨h.1, ?_⟩
  rw [h.2.2 (.str "B") (.num 2025)]
  decide

end OpenFiscal
